import Mathlib

/-!
Verification development for the ollama-chat-connect repository: a chat
client with two chat screens (a streaming one and a simpler non-streaming
one), a settings screen, and a key-value configuration store.  The
definitions below are shallow embeddings of the TypeScript source; the
theorems settle the specification claims about them.
-/

set_option maxRecDepth 10000

/-! ## JavaScript string primitives used by the source -/

/-- Whitespace recognised by the model of JavaScript trimming and of JSON
whitespace skipping (space, tab, carriage return, line feed). -/
def isWsChar (c : Char) : Bool :=
  c = ' ' || c = '\t' || c = '\n' || c = '\r'

/-- Models JavaScript `String.prototype.trim` on the character contents. -/
def jsTrim (s : String) : String :=
  String.mk (((s.data.dropWhile isWsChar).reverse.dropWhile isWsChar).reverse)

/-- Models JavaScript `s.startsWith(p)`: `p` is a prefix of `s`. -/
def jsStartsWith (s p : String) : Bool :=
  p.data.isPrefixOf s.data

/-- Whether the pattern occurs as a contiguous run inside the list. -/
def hasOccur (pat : List Char) : List Char → Bool
  | [] => pat.isEmpty
  | c :: rest => pat.isPrefixOf (c :: rest) || hasOccur pat rest

/-- Replace the first occurrence of a nonempty pattern in a character list. -/
def replaceFirstList (s : List Char) (pat repl : List Char) : List Char :=
  match s with
  | [] => []
  | c :: rest =>
    if pat.isPrefixOf (c :: rest) then repl ++ (c :: rest).drop pat.length
    else c :: replaceFirstList rest pat repl

/-- Models JavaScript `s.replace(pat, repl)` with a string pattern: only the
first occurrence is replaced; if the pattern is absent the string is
returned unchanged; an empty pattern inserts the replacement at the front. -/
def jsReplaceFirst (s pat repl : String) : String :=
  if pat.data = [] then repl ++ s
  else String.mk (replaceFirstList s.data pat.data repl.data)

/-! ## JSON values and a model of the host `JSON.parse`

The chat screens delegate parsing to the platform's `JSON.parse`.  The
parser below models it on the subset of JSON this client exchanges
(objects, arrays, strings with the standard escapes, integer numerals,
`true`, `false`, `null`); any other input is rejected, as `JSON.parse`
rejects malformed input by throwing. -/

inductive Json where
  | null : Json
  | bool (b : Bool) : Json
  | num (n : Int) : Json
  | str (s : String) : Json
  | arr (elems : List Json) : Json
  | obj (fields : List (String × Json)) : Json

/-- JavaScript truthiness of a JSON value. -/
def truthy (j : Json) : Bool :=
  match j with
  | Json.null => false
  | Json.bool b => b
  | Json.num n => if n = 0 then false else true
  | Json.str s => if s = "" then false else true
  | Json.arr _ => true
  | Json.obj _ => true

/-- JavaScript truthiness of a possibly-undefined JSON value. -/
def truthyOptJson : Option Json → Bool
  | none => false
  | some j => truthy j

/-- Property access `j[key]` on a parsed JSON value: `none` models
`undefined`.  With duplicate keys `JSON.parse` keeps the last one. -/
def jsGet (j : Json) (key : String) : Option Json :=
  match j with
  | Json.obj fields => ((fields.filter (fun p => p.1 = key)).getLast?).map (fun p => p.2)
  | _ => none

/-- JavaScript string coercion as performed by `+=` on a string accumulator.
Only string fragments are ever appended by the server protocol; the other
cases model the JavaScript coercions approximately. -/
def jsToString : Json → String
  | Json.str s => s
  | Json.bool true => "true"
  | Json.bool false => "false"
  | Json.null => "null"
  | Json.num n => toString n
  | Json.arr _ => ""
  | Json.obj _ => "[object Object]"

def skipWs (cs : List Char) : List Char :=
  cs.dropWhile isWsChar

def hexVal (c : Char) : Option Nat :=
  if '0' ≤ c ∧ c ≤ '9' then some (c.toNat - 48)
  else if 'a' ≤ c ∧ c ≤ 'f' then some (c.toNat - 87)
  else if 'A' ≤ c ∧ c ≤ 'F' then some (c.toNat - 55)
  else none

/-- Body of a JSON string literal, after the opening quote. -/
def parseStringBody : Nat → List Char → List Char → Option (String × List Char)
  | 0, _, _ => none
  | Nat.succ _, [], _ => none
  | Nat.succ f, c :: rest, acc =>
    if c = '"' then some (String.mk acc.reverse, rest)
    else if c = '\\' then
      match rest with
      | [] => none
      | e :: rest2 =>
        if e = '"' then parseStringBody f rest2 ('"' :: acc)
        else if e = '\\' then parseStringBody f rest2 ('\\' :: acc)
        else if e = '/' then parseStringBody f rest2 ('/' :: acc)
        else if e = 'n' then parseStringBody f rest2 ('\n' :: acc)
        else if e = 't' then parseStringBody f rest2 ('\t' :: acc)
        else if e = 'r' then parseStringBody f rest2 ('\r' :: acc)
        else if e = 'b' then parseStringBody f rest2 ('\x08' :: acc)
        else if e = 'f' then parseStringBody f rest2 ('\x0c' :: acc)
        else if e = 'u' then
          match rest2 with
          | h1 :: h2 :: h3 :: h4 :: rest3 =>
            match hexVal h1, hexVal h2, hexVal h3, hexVal h4 with
            | some a, some b, some c3, some d =>
              parseStringBody f rest3 (Char.ofNat (((a * 16 + b) * 16 + c3) * 16 + d) :: acc)
            | _, _, _, _ => none
          | _ => none
        else none
    else if c.toNat < 32 then none
    else parseStringBody f rest (c :: acc)

def digitsToNat (ds : List Char) : Nat :=
  ds.foldl (fun a c => a * 10 + (c.toNat - 48)) 0

/-- Integer numeral; a fractional part or exponent is rejected (the client
never exchanges non-integer numbers). -/
def parseNumber (cs : List Char) : Option (Json × List Char) :=
  let neg := cs.head? = some '-'
  let cs1 := if neg then cs.drop 1 else cs
  let ds := cs1.takeWhile Char.isDigit
  let rest := cs1.dropWhile Char.isDigit
  if ds = [] then none
  else
    match rest with
    | '.' :: _ => none
    | 'e' :: _ => none
    | 'E' :: _ => none
    | _ =>
      let n : Int := Int.ofNat (digitsToNat ds)
      some (Json.num (if neg then -n else n), rest)

mutual

def parseValue : Nat → List Char → Option (Json × List Char)
  | 0, _ => none
  | Nat.succ f, cs =>
    match skipWs cs with
    | [] => none
    | c :: rest =>
      if c = '"' then
        match parseStringBody (Nat.succ f) rest [] with
        | some (s, r) => some (Json.str s, r)
        | none => none
      else if c = '\x7b' then
        match parseMembers f rest true with
        | some (fields, r) => some (Json.obj fields, r)
        | none => none
      else if c = '[' then
        match parseElements f rest true with
        | some (vs, r) => some (Json.arr vs, r)
        | none => none
      else if c = 't' then
        match rest with
        | 'r' :: 'u' :: 'e' :: r => some (Json.bool true, r)
        | _ => none
      else if c = 'f' then
        match rest with
        | 'a' :: 'l' :: 's' :: 'e' :: r => some (Json.bool false, r)
        | _ => none
      else if c = 'n' then
        match rest with
        | 'u' :: 'l' :: 'l' :: r => some (Json.null, r)
        | _ => none
      else if c = '-' ∨ c.isDigit then parseNumber (c :: rest)
      else none

def parseMembers : Nat → List Char → Bool → Option (List (String × Json) × List Char)
  | 0, _, _ => none
  | Nat.succ f, cs, first =>
    match skipWs cs with
    | [] => none
    | c :: rest =>
      if first ∧ c = '\x7d' then some ([], rest)
      else if c = '"' then
        match parseStringBody (Nat.succ f) rest [] with
        | none => none
        | some (key, r1) =>
          match skipWs r1 with
          | ':' :: r2 =>
            match parseValue f r2 with
            | none => none
            | some (v, r3) =>
              match skipWs r3 with
              | ',' :: r4 =>
                match parseMembers f r4 false with
                | some (fields, r5) => some ((key, v) :: fields, r5)
                | none => none
              | '\x7d' :: r4 => some ([(key, v)], r4)
              | _ => none
          | _ => none
      else none

def parseElements : Nat → List Char → Bool → Option (List Json × List Char)
  | 0, _, _ => none
  | Nat.succ f, cs, first =>
    match skipWs cs with
    | [] => none
    | c :: rest =>
      if first ∧ c = ']' then some ([], rest)
      else
        match parseValue f cs with
        | none => none
        | some (v, r1) =>
          match skipWs r1 with
          | ',' :: r2 =>
            match parseElements f r2 false with
            | some (vs, r3) => some (v :: vs, r3)
            | none => none
          | ']' :: r2 => some ([v], r2)
          | _ => none

end

/-- Models the platform `JSON.parse`: `none` stands for a thrown
`SyntaxError`.  The whole input, up to trailing whitespace, must be one
JSON value. -/
def Json.parse (s : String) : Option Json :=
  match parseValue (2 * s.data.length + 8) s.data with
  | some (j, rest) => if skipWs rest = [] then some j else none
  | none => none

/-! ## Data model shared by both chat screens -/

inductive Role where
  | user : Role
  | assistant : Role
deriving DecidableEq, Repr

/-- A transcript entry: role `user` or `assistant` plus text content. -/
structure Message where
  role : Role
  content : String
deriving DecidableEq, Repr

/-- JavaScript truthiness of a nullable string, as in `!url`. -/
def truthyOptStr : Option String → Bool
  | none => false
  | some s => if s = "" then false else true

/-! ## The streaming chat screen

Shallow embedding of the streaming `Chat` component.  React state updates
are modelled as explicit state passing; the single-threaded event loop of
the source makes this faithful. -/

namespace StreamingChat

/-- One entry of the model list returned by the tags endpoint. -/
structure LocalModel where
  name : String
  modified_at : String
  size : Int
  digest : String
deriving DecidableEq, Repr

/-- State threaded through the streaming read loop of `sendMessage`:
the transcript, the accumulated assistant text, and whether an event with
a truthy `done` flag has ended processing. -/
structure SendState where
  messages : List Message
  assistantText : String
  doneSeen : Bool
deriving DecidableEq, Repr

/-- Splitter used on each decoded chunk: split on every newline. -/
def splitNlAux : List Char → List Char → List (List Char)
  | [], acc => [acc.reverse]
  | c :: cs, acc =>
    if c = '\n' then acc.reverse :: splitNlAux cs []
    else splitNlAux cs (c :: acc)

/-- `chunk.split('\n').filter(line => line.trim() !== '')` from the read
loop of `sendMessage`. -/
def splitLines (chunk : String) : List String :=
  ((splitNlAux chunk.data []).map String.mk).filter
    (fun line => if jsTrim line = "" then false else true)

/-- The `setMessages` updater applied after a fragment is appended to the
accumulator: replace the last assistant entry unless its stored content
already starts with the accumulated text; push a new assistant entry when
the last entry is missing or not an assistant entry; otherwise leave the
transcript unchanged. -/
def applyFragment (msgs : List Message) (t : String) : List Message :=
  match msgs.getLast? with
  | none => msgs ++ [⟨Role.assistant, t⟩]
  | some last =>
    if last.role = Role.assistant ∧ jsStartsWith last.content t = false then
      msgs.dropLast ++ [⟨last.role, t⟩]
    else if ¬ last.role = Role.assistant then
      msgs ++ [⟨Role.assistant, t⟩]
    else msgs

/-- The guard `parsedData.message && parsedData.message.content` and the
extracted fragment, with JavaScript truthiness. -/
def messageContent (j : Json) : Option String :=
  match jsGet j "message" with
  | none => none
  | some m =>
    if truthy m = false then none
    else
      match jsGet m "content" with
      | none => none
      | some c => if truthy c then some (jsToString c) else none

/-- Processing of one successfully parsed stream event: fold a content
fragment into the accumulator and transcript, then honour a truthy `done`
flag by ending processing. -/
def processEvent (st : SendState) (j : Json) : SendState :=
  let st1 :=
    match messageContent j with
    | some frag =>
      let t := st.assistantText ++ frag
      ⟨applyFragment st.messages t, t, st.doneSeen⟩
    | none => st
  if truthyOptJson (jsGet j "done") then ⟨st1.messages, st1.assistantText, true⟩ else st1

/-- Processing of one line: once `done` was seen the source has returned
from `sendMessage`, so nothing further is processed; a line that fails to
parse is skipped by the `catch`-and-`continue`. -/
def processLine (st : SendState) (line : String) : SendState :=
  if st.doneSeen then st
  else
    match Json.parse line with
    | none => st
    | some j => processEvent st j

/-- One iteration of the read loop: split the decoded chunk into nonempty
lines and process each in order. -/
def processChunk (st : SendState) (chunk : String) : SendState :=
  (splitLines chunk).foldl processLine st

/-- The whole read loop over the decoded text chunks of the response body. -/
def runChunks (chunks : List String) (st : SendState) : SendState :=
  chunks.foldl processChunk st

/-- The precondition at the top of `sendMessage`:
`if (!input.trim() || !serverUrl || !selectedModel) return;`. -/
def sendMessageProceeds (input serverUrl selectedModel : String) : Bool :=
  (if jsTrim input = "" then false else true)
    && (if serverUrl = "" then false else true)
    && (if selectedModel = "" then false else true)

/-- Body of the POST to the chat endpoint in the streaming screen. -/
structure ChatRequest where
  model : String
  messages : List Message
  stream : Bool
deriving DecidableEq, Repr

/-- `JSON.stringify({ model: selectedModel, messages: messages.concat(userMessage), stream: true })`:
`messages` is the transcript before the synchronous user append. -/
def buildChatRequest (msgs : List Message) (selectedModel : String) (userMessage : Message) : ChatRequest :=
  ⟨selectedModel, msgs ++ [userMessage], true⟩

/-- Outcome of the fetch, as seen by the engine: a rejection (network
failure) or a response with a success flag and the decoded text chunks of
its body. -/
inductive FetchOutcome where
  | networkError : FetchOutcome
  | response (ok : Bool) (chunks : List String) : FetchOutcome

/-- Observable result of one `sendMessage` call: the final transcript,
whether `setError`/toast reported an error, and the request issued (if the
precondition passed). -/
structure SendResult where
  messages : List Message
  errorReported : Bool
  request : Option ChatRequest
deriving DecidableEq, Repr

/-- The streaming `sendMessage`: guard, synchronous user append, POST,
then either the error path (rejection or non-ok status) or the streaming
fold over the body chunks. -/
def sendMessage (msgs : List Message) (input serverUrl selectedModel : String)
    (outcome : FetchOutcome) : SendResult :=
  if sendMessageProceeds input serverUrl selectedModel = false then ⟨msgs, false, none⟩
  else
    let userMessage : Message := ⟨Role.user, jsTrim input⟩
    let sent := msgs ++ [userMessage]
    let req := buildChatRequest msgs selectedModel userMessage
    match outcome with
    | FetchOutcome.networkError => ⟨sent, true, some req⟩
    | FetchOutcome.response ok chunks =>
      if ok = false then ⟨sent, true, some req⟩
      else
        let fin := runChunks chunks ⟨sent, "", false⟩
        ⟨fin.messages, false, some req⟩

/-- `disabled={isLoading || !input.trim()}` on the send button. -/
def sendButtonDisabled (isLoading : Bool) (input : String) : Bool :=
  isLoading || (if jsTrim input = "" then true else false)

/-- The input field handler `onKeyPress={(e) => e.key === 'Enter' && sendMessage()}`
composed with the guard at the top of `sendMessage`.  The component state
carries an in-flight flag, but neither the handler nor the guard reads it,
so the parameter is unused. -/
def onKeyPressSends (key : String) (isLoading : Bool)
    (input serverUrl selectedModel : String) : Bool :=
  let _ := isLoading
  (if key = "Enter" then true else false) && sendMessageProceeds input serverUrl selectedModel

end StreamingChat

namespace StreamingChat

/-- Outcome of the GET to the tags endpoint, as observed by
`fetchLocalModels`: a caught failure (network error, non-ok status or a
body `JSON.parse` throws on), a parsed body whose `models` member is
falsy, or a parsed `models` array. -/
inductive TagsOutcome where
  | failure : TagsOutcome
  | noModelsField : TagsOutcome
  | success (models : List LocalModel) : TagsOutcome

/-- Observable result of the streaming screen's `loadServerConfig`: the
navigation target, the component state it leaves behind, the URL of the
tags fetch it performed (if any), and the key-value writes it issued. -/
structure ChatInitState where
  route : Option String
  serverUrl : String
  selectedModel : String
  localModels : List LocalModel
  errorMsg : Option String
  fetchedFrom : Option String
  prefsWrites : List (String × String)
deriving DecidableEq, Repr

/-- `loadServerConfig` of the streaming screen: read both preferences;
route to settings when either is falsy; otherwise rewrite the scheme when
the page is served over https, fetch the model list, and adopt the stored
model name only when a nonempty model list arrived.  The `if (!error)`
check reads the stale closure value `null`, so the generic message is
stored whenever the fetched list is empty. -/
def loadServerConfig (url modelName : Option String) (pageIsHttps : Bool)
    (tags : TagsOutcome) : ChatInitState :=
  if truthyOptStr url = false ∨ truthyOptStr modelName = false then
    ⟨some "/settings", "", "", [], none, none, []⟩
  else
    let u := url.getD ""
    let m := modelName.getD ""
    let finalUrl := if pageIsHttps then jsReplaceFirst u "http:" "https:" else u
    let fetchedModels : List LocalModel :=
      match tags with
      | TagsOutcome.success ms => ms
      | _ => []
    if fetchedModels.length > 0 then
      ⟨none, finalUrl, m, fetchedModels, none, some finalUrl, []⟩
    else
      ⟨none, finalUrl, "", fetchedModels,
        some "Could not retrieve model list from server.", some finalUrl, []⟩

end StreamingChat

/-! ## The non-streaming chat screen

Shallow embedding of the simpler `Chat` component in
`src/pages/Chat.tsx`. -/

namespace SimpleChat

/-- Validation of the non-streaming response body:
`JSON.parse(responseText)`, then `!data.message` and
`typeof data.message.content !== 'string'`.  `none` models every thrown
error on this path. -/
def parseChatResponse (body : String) : Option String :=
  match Json.parse body with
  | none => none
  | some data =>
    match jsGet data "message" with
    | none => none
    | some m =>
      if truthy m = false then none
      else
        match jsGet m "content" with
        | some (Json.str s) => some s
        | _ => none

/-- The guard at the top of `sendMessage`, identical in text to the
streaming screen's guard. -/
def sendMessageProceeds (input serverUrl selectedModel : String) : Bool :=
  (if jsTrim input = "" then false else true)
    && (if serverUrl = "" then false else true)
    && (if selectedModel = "" then false else true)

/-- Body of the POST to the chat endpoint in the simpler screen: only the
current user message, and no `stream` member at all. -/
structure ChatRequest where
  model : String
  messages : List Message
deriving DecidableEq, Repr

/-- `JSON.stringify({ model: selectedModel, messages: [{ role: "user", content: userMessage.content }] })`. -/
def buildChatRequest (selectedModel : String) (userMessage : Message) : ChatRequest :=
  ⟨selectedModel, [⟨Role.user, userMessage.content⟩]⟩

/-- Outcome of the fetch: a rejection, or a response with a success flag
and its full body text. -/
inductive FetchOutcome where
  | networkError : FetchOutcome
  | response (ok : Bool) (body : String) : FetchOutcome

/-- A send that fails in one of the ways the claims enumerate: network
failure, non-success status, or a body that fails validation. -/
def failedOutcome : FetchOutcome → Bool
  | FetchOutcome.networkError => true
  | FetchOutcome.response ok body =>
    if ok = false then true
    else
      match parseChatResponse body with
      | none => true
      | some _ => false

/-- Observable result of one `sendMessage` call of the simpler screen. -/
structure SendResult where
  messages : List Message
  errorReported : Bool
  request : Option ChatRequest
deriving DecidableEq, Repr

/-- The non-streaming `sendMessage`: guard, synchronous user append, POST,
await the whole body, validate its shape, and append one complete
assistant message; every failure sets an error and appends nothing. -/
def sendMessage (msgs : List Message) (input serverUrl selectedModel : String)
    (outcome : FetchOutcome) : SendResult :=
  if sendMessageProceeds input serverUrl selectedModel = false then ⟨msgs, false, none⟩
  else
    let userMessage : Message := ⟨Role.user, jsTrim input⟩
    let sent := msgs ++ [userMessage]
    let req := buildChatRequest selectedModel userMessage
    match outcome with
    | FetchOutcome.networkError => ⟨sent, true, some req⟩
    | FetchOutcome.response ok body =>
      if ok = false then ⟨sent, true, some req⟩
      else
        match parseChatResponse body with
        | none => ⟨sent, true, some req⟩
        | some content => ⟨sent ++ [⟨Role.assistant, content⟩], false, some req⟩

/-- Observable result of the simpler screen's `loadServerConfig`. -/
structure ChatInitState where
  route : Option String
  serverUrl : String
  selectedModel : String
deriving DecidableEq, Repr

/-- `loadServerConfig` of the simpler screen: adopt whichever preferences
are truthy, then route to settings when either is falsy. -/
def loadServerConfig (url modelName : Option String) : ChatInitState :=
  let su := if truthyOptStr url then url.getD "" else ""
  let sm := if truthyOptStr modelName then modelName.getD "" else ""
  if truthyOptStr url = false ∨ truthyOptStr modelName = false then
    ⟨some "/settings", su, sm⟩
  else
    ⟨none, su, sm⟩

end SimpleChat

/-! ## Derived definitions used by the statements -/

namespace StreamingChat

/-- A server event that carries exactly one content fragment, the parsed
form of one fragment line of the stream. -/
def contentEvent (f : String) : Json :=
  Json.obj [("message", Json.obj [("content", Json.str f)])]

/-- The fold of `sendMessage` at the level of successfully parsed events. -/
def runEvents (events : List Json) (st : SendState) : SendState :=
  events.foldl processEvent st

end StreamingChat

/-- Concatenation of a list of fragments in delivery order. -/
def concatAll : List String → String
  | [] => ""
  | f :: fs => f ++ concatAll fs

/-- A streaming send that fails at request time: rejected fetch or
non-success HTTP status. -/
def StreamingChat.failedAtRequest : StreamingChat.FetchOutcome → Bool
  | StreamingChat.FetchOutcome.networkError => true
  | StreamingChat.FetchOutcome.response ok _ => if ok = false then true else false

/-! ## Helper lemmas -/

theorem strMk_data (s : String) : String.mk s.data = s := by
  cases s
  rfl

theorem strData_ne_nil (s : String) (h : s ≠ "") : s.data ≠ [] := by
  intro hd
  exact h (by cases s; cases hd; rfl)

theorem isPrefixOf_length_le (l1 l2 : List Char) (h : l1.isPrefixOf l2 = true) :
    l1.length ≤ l2.length := by
  induction l1 generalizing l2 with
  | nil => simp
  | cons a as ih =>
    cases l2 with
    | nil => simp [List.isPrefixOf] at h
    | cons b bs =>
      simp only [List.isPrefixOf, Bool.and_eq_true] at h
      simpa using ih bs h.2

theorem append_isPrefixOf_self (acc f : List Char) (hf : f ≠ []) :
    (acc ++ f).isPrefixOf acc = false := by
  cases hp : (acc ++ f).isPrefixOf acc with
  | false => rfl
  | true =>
    have := isPrefixOf_length_le _ _ hp
    simp only [List.length_append] at this
    have hzero : f.length = 0 := by omega
    exact absurd (List.length_eq_zero.mp hzero) hf

theorem jsStartsWith_append_ne (c f : String) (hf : f ≠ "") :
    jsStartsWith c (c ++ f) = false := by
  unfold jsStartsWith
  rw [String.data_append]
  exact append_isPrefixOf_self c.data f.data (strData_ne_nil f hf)

namespace StreamingChat

theorem applyFragment_concat (ms : List Message) (last : Message) (t : String) :
    applyFragment (ms ++ [last]) t =
      if last.role = Role.assistant ∧ jsStartsWith last.content t = false then
        (ms ++ [last]).dropLast ++ [⟨last.role, t⟩]
      else if ¬ last.role = Role.assistant then (ms ++ [last]) ++ [⟨Role.assistant, t⟩]
      else ms ++ [last] := by
  unfold applyFragment
  rw [List.getLast?_concat]

theorem applyFragment_push (ms : List Message) (last : Message)
    (h : ¬ last.role = Role.assistant) (t : String) :
    applyFragment (ms ++ [last]) t = ms ++ [last, ⟨Role.assistant, t⟩] := by
  rw [applyFragment_concat]
  rw [if_neg (by intro hc; exact h hc.1)]
  rw [if_pos h]
  simp

theorem applyFragment_replace (ms : List Message) (c t : String)
    (h : jsStartsWith c t = false) :
    applyFragment (ms ++ [⟨Role.assistant, c⟩]) t = ms ++ [⟨Role.assistant, t⟩] := by
  rw [applyFragment_concat]
  rw [if_pos ⟨rfl, h⟩]
  rw [List.dropLast_concat]

theorem applyFragment_skip (ms : List Message) (c t : String)
    (h : jsStartsWith c t = true) :
    applyFragment (ms ++ [⟨Role.assistant, c⟩]) t = ms ++ [⟨Role.assistant, c⟩] := by
  rw [applyFragment_concat]
  rw [if_neg (by intro hc; rw [h] at hc; exact Bool.noConfusion hc.2)]
  rw [if_neg (by simp)]

theorem processLine_stopped (st : SendState) (h : st.doneSeen = true) (l : String) :
    processLine st l = st := by
  unfold processLine
  rw [h]
  simp

theorem processChunk_stopped (st : SendState) (h : st.doneSeen = true) (chunk : String) :
    processChunk st chunk = st := by
  unfold processChunk
  generalize splitLines chunk = lines
  induction lines with
  | nil => rfl
  | cons l ls ih => rw [List.foldl_cons, processLine_stopped st h l, ih]

theorem runChunks_stopped (st : SendState) (h : st.doneSeen = true) (chunks : List String) :
    runChunks chunks st = st := by
  unfold runChunks
  induction chunks with
  | nil => rfl
  | cons c cs ih => rw [List.foldl_cons, processChunk_stopped st h c, ih]

theorem processLine_skip (st : SendState) (h0 : st.doneSeen = false) (line : String)
    (hp : Json.parse line = none) : processLine st line = st := by
  unfold processLine
  rw [h0, hp]
  simp

theorem processLine_fragment (st : SendState) (h0 : st.doneSeen = false)
    (line : String) (j : Json) (f : String)
    (hp : Json.parse line = some j) (hf : messageContent j = some f)
    (hd : truthyOptJson (jsGet j "done") = false) :
    processLine st line
      = ⟨applyFragment st.messages (st.assistantText ++ f), st.assistantText ++ f, false⟩ := by
  unfold processLine processEvent
  rw [h0, hp]
  simp only [Bool.false_eq_true, if_false, hf, hd]

theorem processLine_done (st : SendState) (h0 : st.doneSeen = false)
    (line : String) (j : Json)
    (hp : Json.parse line = some j) (hf : messageContent j = none)
    (hd : truthyOptJson (jsGet j "done") = true) :
    processLine st line = ⟨st.messages, st.assistantText, true⟩ := by
  unfold processLine processEvent
  rw [h0, hp]
  simp only [Bool.false_eq_true, if_false, hf, hd]
  simp

theorem messageContent_contentEvent (f : String) (h : f ≠ "") :
    messageContent (contentEvent f) = some f := by
  unfold messageContent contentEvent jsGet
  simp [truthy, jsToString, List.filter, h]

theorem contentEvent_no_done (f : String) :
    truthyOptJson (jsGet (contentEvent f) "done") = false := by
  unfold contentEvent jsGet
  simp [List.filter, truthyOptJson]

theorem runEvents_from_assistant (fs : List String) (h : ∀ f ∈ fs, f ≠ "")
    (ms : List Message) (acc : String) :
    runEvents (fs.map contentEvent) ⟨ms ++ [⟨Role.assistant, acc⟩], acc, false⟩
      = ⟨ms ++ [⟨Role.assistant, acc ++ concatAll fs⟩], acc ++ concatAll fs, false⟩ := by
  induction fs generalizing acc with
  | nil =>
    simp only [List.map_nil, runEvents, List.foldl_nil, concatAll]
    rw [String.append_empty]
  | cons f fs ih =>
    have hf : f ≠ "" := h f (by simp)
    have hrest : ∀ g ∈ fs, g ≠ "" := fun g hg => h g (by simp [hg])
    have hstep : processEvent ⟨ms ++ [⟨Role.assistant, acc⟩], acc, false⟩ (contentEvent f)
        = ⟨ms ++ [⟨Role.assistant, acc ++ f⟩], acc ++ f, false⟩ := by
      unfold processEvent
      rw [messageContent_contentEvent f hf, contentEvent_no_done]
      simp only [Bool.false_eq_true, if_false]
      rw [applyFragment_replace ms acc (acc ++ f) (jsStartsWith_append_ne acc f hf)]
    simp only [runEvents, List.map_cons, List.foldl_cons] at ih ⊢
    rw [hstep, ih hrest (acc ++ f)]
    simp only [concatAll, String.append_assoc]

end StreamingChat

namespace StreamingChat

theorem splitNlAux_cons (c : Char) (cs acc : List Char) :
    splitNlAux (c :: cs) acc
      = if c = '\n' then acc.reverse :: splitNlAux cs [] else splitNlAux cs (c :: acc) := rfl

theorem splitNlAux_no_newline (cs : List Char) (h : ¬ '\n' ∈ cs) :
    ∀ acc, splitNlAux cs acc = [acc.reverse ++ cs] := by
  induction cs with
  | nil => intro acc; simp [splitNlAux]
  | cons c cs ih =>
    intro acc
    have hc : ¬ c = '\n' := by intro hh; exact h (by simp [hh])
    have hcs : ¬ '\n' ∈ cs := by intro hh; exact h (by simp [hh])
    unfold splitNlAux
    rw [if_neg hc, ih hcs (c :: acc)]
    simp

theorem splitLines_single (s : String) (hnl : ¬ '\n' ∈ s.data) (ht : ¬ jsTrim s = "") :
    splitLines s = [s] := by
  unfold splitLines
  rw [splitNlAux_no_newline s.data hnl []]
  simp only [List.reverse_nil, List.nil_append, List.map_cons, List.map_nil, strMk_data]
  simp [List.filter, ht]

theorem splitNlAux_newline_append (xs ys : List Char) :
    ∀ acc, splitNlAux (xs ++ '\n' :: ys) acc = splitNlAux xs acc ++ splitNlAux ys [] := by
  induction xs with
  | nil =>
    intro acc
    simp [splitNlAux]
  | cons c cs ih =>
    intro acc
    by_cases hc : c = '\n'
    · subst hc
      rw [List.cons_append, splitNlAux_cons, splitNlAux_cons, if_pos rfl, if_pos rfl, ih []]
      simp
    · rw [List.cons_append, splitNlAux_cons, splitNlAux_cons, if_neg hc, if_neg hc,
        ih (c :: acc)]

theorem splitLines_newline_append (a b : String) :
    splitLines (a ++ "\n" ++ b) = splitLines (a ++ "\n") ++ splitLines b := by
  unfold splitLines
  have h1 : (a ++ "\n" ++ b).data = a.data ++ '\n' :: b.data := by
    rw [String.data_append, String.data_append, List.append_assoc]
    rfl
  have h2 : (a ++ "\n").data = a.data ++ '\n' :: ([] : List Char) := by
    rw [String.data_append]
  rw [h1, h2, splitNlAux_newline_append a.data b.data [],
    splitNlAux_newline_append a.data [] []]
  simp only [List.map_append, List.filter_append]
  have h3 : splitNlAux [] [] = [([] : List Char)] := rfl
  rw [h3]
  simp [jsTrim]

theorem processChunk_newline_append (st : SendState) (a b : String) :
    processChunk st (a ++ "\n" ++ b) = processChunk (processChunk st (a ++ "\n")) b := by
  unfold processChunk
  rw [splitLines_newline_append, List.foldl_append]

theorem runChunks_flatten (chunks : List String) (st : SendState) :
    runChunks chunks st = ((chunks.map splitLines).flatten).foldl processLine st := by
  induction chunks generalizing st with
  | nil => rfl
  | cons c cs ih =>
    simp only [runChunks, List.foldl_cons, List.map_cons, List.flatten_cons, List.foldl_append]
    exact ih (processChunk st c)

end StreamingChat

theorem replaceFirstList_no_occur (pat repl : List Char) :
    ∀ s : List Char, hasOccur pat s = false → replaceFirstList s pat repl = s := by
  intro s
  induction s with
  | nil => intro _; rfl
  | cons c cs ih =>
    intro h
    unfold hasOccur at h
    rw [Bool.or_eq_false_iff] at h
    unfold replaceFirstList
    rw [if_neg (fun hc => by rw [h.1] at hc; exact Bool.noConfusion hc), ih h.2]

theorem jsReplaceFirst_no_occur (s pat repl : String) (hp : pat.data ≠ [])
    (h : hasOccur pat.data s.data = false) : jsReplaceFirst s pat repl = s := by
  unfold jsReplaceFirst
  rw [if_neg hp, replaceFirstList_no_occur pat.data repl.data s.data h, strMk_data]

/-! ## Claims -/

/-- C1, counterexample.  The claim says a content fragment delivered twice
in sequence is not duplicated in the final assistant message.  On the code,
the accumulator is extended by every parsed fragment before the prefix
check runs, so the stream delivering the fragment `a` twice followed by a
completion event yields the assistant content `aa`, not `a`. -/
theorem c1_counterexample :
    (StreamingChat.sendMessage [] "hi" "http://s" "m"
        (StreamingChat.FetchOutcome.response true
          ["\x7b\"message\":\x7b\"content\":\"a\"\x7d\x7d\n\x7b\"message\":\x7b\"content\":\"a\"\x7d\x7d\n\x7b\"done\":true\x7d\n"])).messages
      = [⟨Role.user, "hi"⟩, ⟨Role.assistant, "aa"⟩] ∧
    ¬ (StreamingChat.sendMessage [] "hi" "http://s" "m"
        (StreamingChat.FetchOutcome.response true
          ["\x7b\"message\":\x7b\"content\":\"a\"\x7d\x7d\n\x7b\"message\":\x7b\"content\":\"a\"\x7d\x7d\n\x7b\"done\":true\x7d\n"])).messages
      = [⟨Role.user, "hi"⟩, ⟨Role.assistant, "a"⟩] := by
  constructor
  · rfl
  · decide

/-- C1, amended.  The streaming fold appends every delivered fragment to
the accumulator, duplicates included: after a stream of nonempty content
events the single open assistant message holds the concatenation of all
fragments in delivery order (so an in-stream duplicate is duplicated).
What the prefix check does guarantee is the second conjunct: a candidate
update whose accumulated text is already a prefix of the stored content of
the last assistant entry is treated as already applied and skipped. -/
theorem c1_theorem (init : List Message) (u : Message) (hu : u.role = Role.user)
    (f : String) (fs : List String) (h : ∀ g ∈ f :: fs, g ≠ "") :
    (StreamingChat.runEvents ((f :: fs).map StreamingChat.contentEvent)
        ⟨init ++ [u], "", false⟩).messages
      = init ++ [u, ⟨Role.assistant, concatAll (f :: fs)⟩] ∧
    ∀ (ms : List Message) (c t : String), jsStartsWith c t = true →
      StreamingChat.applyFragment (ms ++ [⟨Role.assistant, c⟩]) t
        = ms ++ [⟨Role.assistant, c⟩] := by
  constructor
  · have hf : f ≠ "" := h f (by simp)
    have hrest : ∀ g ∈ fs, g ≠ "" := fun g hg => h g (by simp [hg])
    have hur : ¬ u.role = Role.assistant := by
      rw [hu]
      intro hh
      exact Role.noConfusion hh
    have hstep : StreamingChat.processEvent ⟨init ++ [u], "", false⟩
          (StreamingChat.contentEvent f)
        = ⟨(init ++ [u]) ++ [⟨Role.assistant, f⟩], f, false⟩ := by
      unfold StreamingChat.processEvent
      rw [StreamingChat.messageContent_contentEvent f hf, StreamingChat.contentEvent_no_done]
      simp only [Bool.false_eq_true, if_false]
      rw [show ("" : String) ++ f = f from String.empty_append f]
      rw [StreamingChat.applyFragment_push init u hur f]
      simp [List.append_assoc]
    simp only [List.map_cons, StreamingChat.runEvents, List.foldl_cons]
    rw [hstep]
    have hrec := StreamingChat.runEvents_from_assistant fs hrest (init ++ [u]) f
    simp only [StreamingChat.runEvents] at hrec
    rw [hrec]
    simp [List.append_assoc, concatAll]
  · intro ms c t hpre
    exact StreamingChat.applyFragment_skip ms c t hpre

/-- C1, witness for the amended theorem at the duplicate stream
`a`, `a`. -/
theorem c1_witness :
    (StreamingChat.runEvents ((["a", "a"]).map StreamingChat.contentEvent)
        ⟨[] ++ [(⟨Role.user, "hi"⟩ : Message)], "", false⟩).messages
      = [] ++ [⟨Role.user, "hi"⟩, ⟨Role.assistant, concatAll ["a", "a"]⟩] ∧
    ∀ (ms : List Message) (c t : String), jsStartsWith c t = true →
      StreamingChat.applyFragment (ms ++ [⟨Role.assistant, c⟩]) t
        = ms ++ [⟨Role.assistant, c⟩] :=
  c1_theorem [] ⟨Role.user, "hi"⟩ rfl "a" ["a"] (by decide)

/-- C2, counterexample.  The claim says a newline-delimited JSON object
split across two consecutive chunks is parsed correctly once both chunks
have arrived.  On the code each chunk is split into lines on its own, so
the two halves of the split object are each rejected as malformed and the
fragment `b` is lost: the final assistant message is `a`, not `ab`. -/
theorem c2_counterexample :
    (StreamingChat.sendMessage [] "hi" "http://s" "m"
        (StreamingChat.FetchOutcome.response true
          ["\x7b\"message\":\x7b\"content\":\"a\"\x7d\x7d\n\x7b\"mess",
           "age\":\x7b\"content\":\"b\"\x7d\x7d"])).messages
      = [⟨Role.user, "hi"⟩, ⟨Role.assistant, "a"⟩] ∧
    ¬ (StreamingChat.sendMessage [] "hi" "http://s" "m"
        (StreamingChat.FetchOutcome.response true
          ["\x7b\"message\":\x7b\"content\":\"a\"\x7d\x7d\n\x7b\"mess",
           "age\":\x7b\"content\":\"b\"\x7d\x7d"])).messages
      = [⟨Role.user, "hi"⟩, ⟨Role.assistant, "ab"⟩] := by
  constructor
  · rfl
  · decide

/-- C2, amended.  The read loop carries no decoder or parser state across
chunk boundaries: the fold over the chunk list equals the fold over the
lines obtained by splitting every chunk independently (first conjunct), so
an event split across two chunks is never reassembled and its fragment is
lost, as the counterexample shows.  Splitting is only safe at a chunk
boundary that coincides with a newline (second conjunct). -/
theorem c2_theorem (chunks : List String) (st : StreamingChat.SendState)
    (a b : String) (rest : List String) :
    StreamingChat.runChunks chunks st
      = ((chunks.map StreamingChat.splitLines).flatten).foldl StreamingChat.processLine st ∧
    StreamingChat.runChunks ((a ++ "\n") :: b :: rest) st
      = StreamingChat.runChunks ((a ++ "\n" ++ b) :: rest) st := by
  refine ⟨StreamingChat.runChunks_flatten chunks st, ?_⟩
  simp only [StreamingChat.runChunks, List.foldl_cons]
  rw [StreamingChat.processChunk_newline_append]

/-- C3, confirmed.  A stream delivering the events with contents `a`, `b`
and then a completion event, each as one newline-terminated line, folds to
exactly one assistant message `ab` appended after the user entry, and any
chunks delivered after the completion event leave the state untouched. -/
theorem c3_theorem (ms : List Message) (c : String) (extra : List String) :
    StreamingChat.runChunks
        (["\x7b\"message\":\x7b\"content\":\"a\"\x7d\x7d\n",
          "\x7b\"message\":\x7b\"content\":\"b\"\x7d\x7d\n",
          "\x7b\"done\":true\x7d\n"] ++ extra)
        ⟨ms ++ [⟨Role.user, c⟩], "", false⟩
      = ⟨ms ++ [⟨Role.user, c⟩, ⟨Role.assistant, "ab"⟩], "ab", true⟩ := by
  have hur : ¬ (⟨Role.user, c⟩ : Message).role = Role.assistant := by
    intro hh
    exact Role.noConfusion hh
  have h1 : StreamingChat.processChunk ⟨ms ++ [⟨Role.user, c⟩], "", false⟩
        "\x7b\"message\":\x7b\"content\":\"a\"\x7d\x7d\n"
      = ⟨ms ++ [⟨Role.user, c⟩, ⟨Role.assistant, "a"⟩], "a", false⟩ := by
    have hpl := StreamingChat.processLine_fragment
      (⟨ms ++ [(⟨Role.user, c⟩ : Message)], "", false⟩ : StreamingChat.SendState) rfl
      "\x7b\"message\":\x7b\"content\":\"a\"\x7d\x7d" (StreamingChat.contentEvent "a") "a"
      rfl rfl rfl
    have hpush := StreamingChat.applyFragment_push ms (⟨Role.user, c⟩ : Message) hur "a"
    show (StreamingChat.splitLines "\x7b\"message\":\x7b\"content\":\"a\"\x7d\x7d\n").foldl
        StreamingChat.processLine _ = _
    rw [show StreamingChat.splitLines "\x7b\"message\":\x7b\"content\":\"a\"\x7d\x7d\n"
        = ["\x7b\"message\":\x7b\"content\":\"a\"\x7d\x7d"] from rfl]
    simp only [List.foldl_cons, List.foldl_nil]
    rw [hpl]
    show (⟨StreamingChat.applyFragment (ms ++ [⟨Role.user, c⟩]) "a", "a", false⟩ :
      StreamingChat.SendState) = _
    rw [hpush]
  have h2 : StreamingChat.processChunk
        ⟨ms ++ [⟨Role.user, c⟩, ⟨Role.assistant, "a"⟩], "a", false⟩
        "\x7b\"message\":\x7b\"content\":\"b\"\x7d\x7d\n"
      = ⟨ms ++ [⟨Role.user, c⟩, ⟨Role.assistant, "ab"⟩], "ab", false⟩ := by
    have hpl := StreamingChat.processLine_fragment
      (⟨ms ++ [(⟨Role.user, c⟩ : Message), ⟨Role.assistant, "a"⟩], "a", false⟩ :
        StreamingChat.SendState) rfl
      "\x7b\"message\":\x7b\"content\":\"b\"\x7d\x7d" (StreamingChat.contentEvent "b") "b"
      rfl rfl rfl
    have hassoc : ms ++ [(⟨Role.user, c⟩ : Message), (⟨Role.assistant, "a"⟩ : Message)]
        = (ms ++ [⟨Role.user, c⟩]) ++ [⟨Role.assistant, "a"⟩] := by simp
    have hrepl := StreamingChat.applyFragment_replace
      (ms ++ [(⟨Role.user, c⟩ : Message)]) "a" "ab" rfl
    show (StreamingChat.splitLines "\x7b\"message\":\x7b\"content\":\"b\"\x7d\x7d\n").foldl
        StreamingChat.processLine _ = _
    rw [show StreamingChat.splitLines "\x7b\"message\":\x7b\"content\":\"b\"\x7d\x7d\n"
        = ["\x7b\"message\":\x7b\"content\":\"b\"\x7d\x7d"] from rfl]
    simp only [List.foldl_cons, List.foldl_nil]
    rw [hpl]
    show (⟨StreamingChat.applyFragment (ms ++ [⟨Role.user, c⟩, ⟨Role.assistant, "a"⟩]) "ab",
      "ab", false⟩ : StreamingChat.SendState) = _
    rw [hassoc, hrepl]
    simp [List.append_assoc]
  have h3 : StreamingChat.processChunk
        ⟨ms ++ [⟨Role.user, c⟩, ⟨Role.assistant, "ab"⟩], "ab", false⟩
        "\x7b\"done\":true\x7d\n"
      = ⟨ms ++ [⟨Role.user, c⟩, ⟨Role.assistant, "ab"⟩], "ab", true⟩ := by
    have hpl := StreamingChat.processLine_done
      (⟨ms ++ [(⟨Role.user, c⟩ : Message), ⟨Role.assistant, "ab"⟩], "ab", false⟩ :
        StreamingChat.SendState) rfl
      "\x7b\"done\":true\x7d" (Json.obj [("done", Json.bool true)]) rfl rfl rfl
    show (StreamingChat.splitLines "\x7b\"done\":true\x7d\n").foldl
        StreamingChat.processLine _ = _
    rw [show StreamingChat.splitLines "\x7b\"done\":true\x7d\n"
        = ["\x7b\"done\":true\x7d"] from rfl]
    simp only [List.foldl_cons, List.foldl_nil]
    rw [hpl]
  show List.foldl StreamingChat.processChunk _ _ = _
  rw [List.foldl_append]
  simp only [List.foldl_cons, List.foldl_nil]
  rw [h1, h2, h3]
  exact StreamingChat.runChunks_stopped _ rfl extra

/-- C4, counterexample.  The claim says the non-streaming variant issues
the same POST as the streaming one, with the full transcript in the
`messages` field and `stream:false`.  On the code the simpler screen sends
only the current user message: with a two-entry transcript already
present, its request body carries one message, not three (and its body has
no `stream` member at all). -/
theorem c4_counterexample :
    (SimpleChat.sendMessage [⟨Role.user, "hi"⟩, ⟨Role.assistant, "yo"⟩] "again" "http://s" "m"
        (SimpleChat.FetchOutcome.response true
          "\x7b\"message\":\x7b\"content\":\"ok\"\x7d\x7d")).request
      = some ⟨"m", [⟨Role.user, "again"⟩]⟩ ∧
    ¬ (SimpleChat.sendMessage [⟨Role.user, "hi"⟩, ⟨Role.assistant, "yo"⟩] "again" "http://s" "m"
        (SimpleChat.FetchOutcome.response true
          "\x7b\"message\":\x7b\"content\":\"ok\"\x7d\x7d")).request
      = some ⟨"m", [⟨Role.user, "hi"⟩, ⟨Role.assistant, "yo"⟩, ⟨Role.user, "again"⟩]⟩ := by
  constructor
  · rfl
  · decide

/-- C4, amended.  Whenever the precondition passes, the streaming screen
POSTs `model`, the full transcript so far including the just-appended user
message, and `stream: true`; the non-streaming screen POSTs `model` and a
`messages` array holding only the current user message (its body has no
`stream` member), regardless of the response outcome. -/
theorem c4_theorem (msgs : List Message) (input serverUrl model : String)
    (h1 : StreamingChat.sendMessageProceeds input serverUrl model = true)
    (h2 : SimpleChat.sendMessageProceeds input serverUrl model = true)
    (o1 : StreamingChat.FetchOutcome) (o2 : SimpleChat.FetchOutcome) :
    (StreamingChat.sendMessage msgs input serverUrl model o1).request
      = some ⟨model, msgs ++ [⟨Role.user, jsTrim input⟩], true⟩ ∧
    (SimpleChat.sendMessage msgs input serverUrl model o2).request
      = some ⟨model, [⟨Role.user, jsTrim input⟩]⟩ := by
  constructor
  · unfold StreamingChat.sendMessage
    rw [if_neg (fun hc => by rw [h1] at hc; exact Bool.noConfusion hc)]
    cases o1 with
    | networkError => rfl
    | response ok chunks => cases ok <;> rfl
  · unfold SimpleChat.sendMessage
    rw [if_neg (fun hc => by rw [h2] at hc; exact Bool.noConfusion hc)]
    cases o2 with
    | networkError => rfl
    | response ok body =>
      cases ok with
      | false => rfl
      | true =>
        have hall : ∀ x : Option String,
            (match x with
              | none => SimpleChat.SendResult.mk
                  (msgs ++ [Message.mk Role.user (jsTrim input)]) true
                  (some (SimpleChat.buildChatRequest model (Message.mk Role.user (jsTrim input))))
              | some content => SimpleChat.SendResult.mk
                  ((msgs ++ [Message.mk Role.user (jsTrim input)])
                    ++ [Message.mk Role.assistant content]) false
                  (some (SimpleChat.buildChatRequest model
                    (Message.mk Role.user (jsTrim input))))).request
              = some (SimpleChat.ChatRequest.mk model [Message.mk Role.user (jsTrim input)]) := by
          intro x
          cases x <;> rfl
        exact hall (SimpleChat.parseChatResponse body)

/-- C4, witness for the amended theorem. -/
theorem c4_witness :
    (StreamingChat.sendMessage [] "hi" "http://s" "m"
        StreamingChat.FetchOutcome.networkError).request
      = some ⟨"m", [] ++ [⟨Role.user, jsTrim "hi"⟩], true⟩ ∧
    (SimpleChat.sendMessage [] "hi" "http://s" "m"
        SimpleChat.FetchOutcome.networkError).request
      = some ⟨"m", [⟨Role.user, jsTrim "hi"⟩]⟩ :=
  c4_theorem [] "hi" "http://s" "m" (by decide) (by decide)
    StreamingChat.FetchOutcome.networkError SimpleChat.FetchOutcome.networkError

/-- C5, counterexample.  The claim says that after a model-list fetch
failure the engine remains usable with the preconfigured model name.  On
the code `setSelectedModel(model)` runs only when a nonempty model list
arrived, so after a failure the selected model stays empty and the
`sendMessage` precondition rejects the send: the user cannot send at all. -/
theorem c5_counterexample :
    (StreamingChat.loadServerConfig (some "http://s") (some "llama") false
        StreamingChat.TagsOutcome.failure).selectedModel = "" ∧
    (StreamingChat.loadServerConfig (some "http://s") (some "llama") false
        StreamingChat.TagsOutcome.failure).errorMsg
      = some "Could not retrieve model list from server." ∧
    StreamingChat.sendMessageProceeds "hi"
      (StreamingChat.loadServerConfig (some "http://s") (some "llama") false
        StreamingChat.TagsOutcome.failure).serverUrl
      (StreamingChat.loadServerConfig (some "http://s") (some "llama") false
        StreamingChat.TagsOutcome.failure).selectedModel = false :=
  ⟨rfl, rfl, rfl⟩

/-- C5, amended.  When both settings are present and the model-list fetch
fails, a user-visible connection error is surfaced, but the engine does
not remain usable: the selected model is left empty, so the send
precondition rejects every input until a nonempty model list is fetched. -/
theorem c5_theorem (url modelName : Option String) (hu : truthyOptStr url = true)
    (hm : truthyOptStr modelName = true) (pageIsHttps : Bool) :
    (StreamingChat.loadServerConfig url modelName pageIsHttps
        StreamingChat.TagsOutcome.failure).errorMsg
      = some "Could not retrieve model list from server." ∧
    (StreamingChat.loadServerConfig url modelName pageIsHttps
        StreamingChat.TagsOutcome.failure).selectedModel = "" ∧
    ∀ input : String,
      StreamingChat.sendMessageProceeds input
        (StreamingChat.loadServerConfig url modelName pageIsHttps
          StreamingChat.TagsOutcome.failure).serverUrl
        (StreamingChat.loadServerConfig url modelName pageIsHttps
          StreamingChat.TagsOutcome.failure).selectedModel = false := by
  have hneg : ¬ (truthyOptStr url = false ∨ truthyOptStr modelName = false) := by
    intro hc
    rcases hc with hc | hc
    · rw [hu] at hc
      exact Bool.noConfusion hc
    · rw [hm] at hc
      exact Bool.noConfusion hc
  have hcfg : StreamingChat.loadServerConfig url modelName pageIsHttps
      StreamingChat.TagsOutcome.failure
      = ⟨none,
          (if pageIsHttps then jsReplaceFirst (url.getD "") "http:" "https:" else url.getD ""),
          "", [], some "Could not retrieve model list from server.",
          some (if pageIsHttps then jsReplaceFirst (url.getD "") "http:" "https:"
            else url.getD ""), []⟩ := by
    unfold StreamingChat.loadServerConfig
    rw [if_neg hneg]
    rfl
  refine ⟨?_, ?_, ?_⟩
  · rw [hcfg]
  · rw [hcfg]
  · intro input
    rw [hcfg]
    unfold StreamingChat.sendMessageProceeds
    simp

/-- C5, witness for the amended theorem at a concrete configuration. -/
theorem c5_witness :
    (StreamingChat.loadServerConfig (some "http://srv") (some "llama") false
        StreamingChat.TagsOutcome.failure).errorMsg
      = some "Could not retrieve model list from server." ∧
    (StreamingChat.loadServerConfig (some "http://srv") (some "llama") false
        StreamingChat.TagsOutcome.failure).selectedModel = "" ∧
    ∀ input : String,
      StreamingChat.sendMessageProceeds input
        (StreamingChat.loadServerConfig (some "http://srv") (some "llama") false
          StreamingChat.TagsOutcome.failure).serverUrl
        (StreamingChat.loadServerConfig (some "http://srv") (some "llama") false
          StreamingChat.TagsOutcome.failure).selectedModel = false :=
  c5_theorem (some "http://srv") (some "llama") (by decide) (by decide) false

/-- C6, counterexample.  The claim says user input is rejected while a
send is in flight.  The send button is indeed disabled, but the Enter-key
handler calls `sendMessage` whenever the key is Enter, and the guard at
the top of `sendMessage` never consults the in-flight flag: with the flag
set and a nonempty input the send proceeds, appends a new user message and
issues a second request. -/
theorem c6_counterexample :
    StreamingChat.sendButtonDisabled true "hi" = true ∧
    StreamingChat.onKeyPressSends "Enter" true "hi" "http://s" "m" = true ∧
    (StreamingChat.sendMessage [⟨Role.user, "q"⟩, ⟨Role.assistant, "r"⟩] "hi" "http://s" "m"
        (StreamingChat.FetchOutcome.response true [])).messages
      = [⟨Role.user, "q"⟩, ⟨Role.assistant, "r"⟩, ⟨Role.user, "hi"⟩] ∧
    (StreamingChat.sendMessage [⟨Role.user, "q"⟩, ⟨Role.assistant, "r"⟩] "hi" "http://s" "m"
        (StreamingChat.FetchOutcome.response true [])).request
      = some ⟨"m", [⟨Role.user, "q"⟩, ⟨Role.assistant, "r"⟩, ⟨Role.user, "hi"⟩], true⟩ := by
  exact ⟨rfl, rfl, rfl, rfl⟩

/-- C6, amended.  While a send is in flight the send button is disabled,
but neither the Enter-key handler nor the `sendMessage` precondition reads
the in-flight flag, so for any nonempty input and configured server and
model an Enter keypress starts a send regardless of the flag. -/
theorem c6_theorem (isLoading : Bool) (input serverUrl selectedModel : String)
    (h1 : ¬ jsTrim input = "") (h2 : ¬ serverUrl = "") (h3 : ¬ selectedModel = "") :
    StreamingChat.sendButtonDisabled true input = true ∧
    StreamingChat.onKeyPressSends "Enter" isLoading input serverUrl selectedModel = true := by
  constructor
  · rfl
  · unfold StreamingChat.onKeyPressSends StreamingChat.sendMessageProceeds
    rw [if_neg h1, if_neg h2, if_neg h3]
    rfl

/-- C6, witness for the amended theorem. -/
theorem c6_witness :
    StreamingChat.sendButtonDisabled true "hi" = true ∧
    StreamingChat.onKeyPressSends "Enter" true "hi" "http://s" "m" = true :=
  c6_theorem true "hi" "http://s" "m" (by decide) (by decide) (by decide)

/-- C7, confirmed.  A line that fails to parse as JSON, delivered between
two valid fragment lines, is skipped without aborting the stream: the
final assistant message is the concatenation of the two valid fragments. -/
theorem c7_theorem (ms : List Message) (c : String) (bad : String)
    (hnl : ¬ '\n' ∈ bad.data) (htrim : ¬ jsTrim bad = "")
    (hbad : Json.parse bad = none) :
    StreamingChat.runChunks
        ["\x7b\"message\":\x7b\"content\":\"a\"\x7d\x7d", bad,
         "\x7b\"message\":\x7b\"content\":\"b\"\x7d\x7d"]
        ⟨ms ++ [⟨Role.user, c⟩], "", false⟩
      = ⟨ms ++ [⟨Role.user, c⟩, ⟨Role.assistant, "ab"⟩], "ab", false⟩ := by
  have hur : ¬ (⟨Role.user, c⟩ : Message).role = Role.assistant := by
    intro hh
    exact Role.noConfusion hh
  have h1 : StreamingChat.processChunk ⟨ms ++ [⟨Role.user, c⟩], "", false⟩
        "\x7b\"message\":\x7b\"content\":\"a\"\x7d\x7d"
      = ⟨ms ++ [⟨Role.user, c⟩, ⟨Role.assistant, "a"⟩], "a", false⟩ := by
    have hpl := StreamingChat.processLine_fragment
      (⟨ms ++ [(⟨Role.user, c⟩ : Message)], "", false⟩ : StreamingChat.SendState) rfl
      "\x7b\"message\":\x7b\"content\":\"a\"\x7d\x7d" (StreamingChat.contentEvent "a") "a"
      rfl rfl rfl
    have hpush := StreamingChat.applyFragment_push ms (⟨Role.user, c⟩ : Message) hur "a"
    show (StreamingChat.splitLines "\x7b\"message\":\x7b\"content\":\"a\"\x7d\x7d").foldl
        StreamingChat.processLine _ = _
    rw [show StreamingChat.splitLines "\x7b\"message\":\x7b\"content\":\"a\"\x7d\x7d"
        = ["\x7b\"message\":\x7b\"content\":\"a\"\x7d\x7d"] from rfl]
    simp only [List.foldl_cons, List.foldl_nil]
    rw [hpl]
    show (⟨StreamingChat.applyFragment (ms ++ [⟨Role.user, c⟩]) "a", "a", false⟩ :
      StreamingChat.SendState) = _
    rw [hpush]
  have h2 : StreamingChat.processChunk
        ⟨ms ++ [⟨Role.user, c⟩, ⟨Role.assistant, "a"⟩], "a", false⟩ bad
      = ⟨ms ++ [⟨Role.user, c⟩, ⟨Role.assistant, "a"⟩], "a", false⟩ := by
    show (StreamingChat.splitLines bad).foldl StreamingChat.processLine _ = _
    rw [StreamingChat.splitLines_single bad hnl htrim]
    simp only [List.foldl_cons, List.foldl_nil]
    exact StreamingChat.processLine_skip _ rfl bad hbad
  have h3 : StreamingChat.processChunk
        ⟨ms ++ [⟨Role.user, c⟩, ⟨Role.assistant, "a"⟩], "a", false⟩
        "\x7b\"message\":\x7b\"content\":\"b\"\x7d\x7d"
      = ⟨ms ++ [⟨Role.user, c⟩, ⟨Role.assistant, "ab"⟩], "ab", false⟩ := by
    have hpl := StreamingChat.processLine_fragment
      (⟨ms ++ [(⟨Role.user, c⟩ : Message), ⟨Role.assistant, "a"⟩], "a", false⟩ :
        StreamingChat.SendState) rfl
      "\x7b\"message\":\x7b\"content\":\"b\"\x7d\x7d" (StreamingChat.contentEvent "b") "b"
      rfl rfl rfl
    have hassoc : ms ++ [(⟨Role.user, c⟩ : Message), (⟨Role.assistant, "a"⟩ : Message)]
        = (ms ++ [⟨Role.user, c⟩]) ++ [⟨Role.assistant, "a"⟩] := by simp
    have hrepl := StreamingChat.applyFragment_replace
      (ms ++ [(⟨Role.user, c⟩ : Message)]) "a" "ab" rfl
    show (StreamingChat.splitLines "\x7b\"message\":\x7b\"content\":\"b\"\x7d\x7d").foldl
        StreamingChat.processLine _ = _
    rw [show StreamingChat.splitLines "\x7b\"message\":\x7b\"content\":\"b\"\x7d\x7d"
        = ["\x7b\"message\":\x7b\"content\":\"b\"\x7d\x7d"] from rfl]
    simp only [List.foldl_cons, List.foldl_nil]
    rw [hpl]
    show (⟨StreamingChat.applyFragment (ms ++ [⟨Role.user, c⟩, ⟨Role.assistant, "a"⟩]) "ab",
      "ab", false⟩ : StreamingChat.SendState) = _
    rw [hassoc, hrepl]
    simp [List.append_assoc]
  show List.foldl StreamingChat.processChunk _ _ = _
  simp only [List.foldl_cons, List.foldl_nil]
  rw [h1, h2, h3]

/-- C7, witness at the malformed middle line `this is not json`. -/
theorem c7_witness :
    Json.parse "this is not json" = none ∧
    StreamingChat.runChunks
        ["\x7b\"message\":\x7b\"content\":\"a\"\x7d\x7d", "this is not json",
         "\x7b\"message\":\x7b\"content\":\"b\"\x7d\x7d"]
        ⟨[] ++ [⟨Role.user, "hi"⟩], "", false⟩
      = ⟨[] ++ [⟨Role.user, "hi"⟩, ⟨Role.assistant, "ab"⟩], "ab", false⟩ :=
  ⟨rfl, c7_theorem [] "hi" "this is not json" (by decide) (by decide) rfl⟩

/-- C8, confirmed.  Every failed send - a rejected fetch or non-success
status in either screen, or (in the non-streaming screen) a body that is
unparseable or fails shape validation - reports a user-visible error,
appends no assistant message, and leaves the transcript otherwise
unchanged: the just-appended user message is its last entry. -/
theorem c8_theorem (msgs : List Message) (input serverUrl model : String)
    (hg1 : StreamingChat.sendMessageProceeds input serverUrl model = true)
    (hg2 : SimpleChat.sendMessageProceeds input serverUrl model = true)
    (o1 : StreamingChat.FetchOutcome) (h1 : StreamingChat.failedAtRequest o1 = true)
    (o2 : SimpleChat.FetchOutcome) (h2 : SimpleChat.failedOutcome o2 = true) :
    (StreamingChat.sendMessage msgs input serverUrl model o1).messages
      = msgs ++ [⟨Role.user, jsTrim input⟩] ∧
    (StreamingChat.sendMessage msgs input serverUrl model o1).errorReported = true ∧
    (SimpleChat.sendMessage msgs input serverUrl model o2).messages
      = msgs ++ [⟨Role.user, jsTrim input⟩] ∧
    (SimpleChat.sendMessage msgs input serverUrl model o2).errorReported = true := by
  have hn1 : ¬ StreamingChat.sendMessageProceeds input serverUrl model = false := by
    rw [hg1]
    exact fun hc => Bool.noConfusion hc
  have hn2 : ¬ SimpleChat.sendMessageProceeds input serverUrl model = false := by
    rw [hg2]
    exact fun hc => Bool.noConfusion hc
  have hs : StreamingChat.sendMessage msgs input serverUrl model o1
      = ⟨msgs ++ [⟨Role.user, jsTrim input⟩], true,
          some (StreamingChat.buildChatRequest msgs model ⟨Role.user, jsTrim input⟩)⟩ := by
    unfold StreamingChat.sendMessage
    rw [if_neg hn1]
    cases o1 with
    | networkError => rfl
    | response ok chunks =>
      cases ok with
      | false => rfl
      | true =>
        exact absurd h1 (by simp [StreamingChat.failedAtRequest])
  have hsim : SimpleChat.sendMessage msgs input serverUrl model o2
      = ⟨msgs ++ [⟨Role.user, jsTrim input⟩], true,
          some (SimpleChat.buildChatRequest model ⟨Role.user, jsTrim input⟩)⟩ := by
    unfold SimpleChat.sendMessage
    rw [if_neg hn2]
    cases o2 with
    | networkError => rfl
    | response ok body =>
      cases ok with
      | false => rfl
      | true =>
        have hpcn : SimpleChat.parseChatResponse body = none := by
          have h2' : (match SimpleChat.parseChatResponse body with
              | none => true
              | some _ => false) = true := h2
          cases hx : SimpleChat.parseChatResponse body with
          | none => rfl
          | some content =>
            rw [hx] at h2'
            exact Bool.noConfusion h2'
        have hall : ∀ x : Option String, x = none →
            (match x with
              | none => SimpleChat.SendResult.mk
                  (msgs ++ [Message.mk Role.user (jsTrim input)]) true
                  (some (SimpleChat.buildChatRequest model (Message.mk Role.user (jsTrim input))))
              | some content => SimpleChat.SendResult.mk
                  ((msgs ++ [Message.mk Role.user (jsTrim input)])
                    ++ [Message.mk Role.assistant content]) false
                  (some (SimpleChat.buildChatRequest model
                    (Message.mk Role.user (jsTrim input)))))
              = SimpleChat.SendResult.mk
                  (msgs ++ [Message.mk Role.user (jsTrim input)]) true
                  (some (SimpleChat.buildChatRequest model
                    (Message.mk Role.user (jsTrim input)))) := by
          intro x hx
          subst hx
          rfl
        exact hall (SimpleChat.parseChatResponse body) hpcn
  rw [hs, hsim]
  exact ⟨rfl, rfl, rfl, rfl⟩

/-- C8, witness: rejected fetch on the streaming screen, and a 200
response whose body lacks the `message` member on the simpler screen. -/
theorem c8_witness :
    (StreamingChat.sendMessage [] "hi" "http://s" "m"
        StreamingChat.FetchOutcome.networkError).messages
      = [] ++ [⟨Role.user, jsTrim "hi"⟩] ∧
    (StreamingChat.sendMessage [] "hi" "http://s" "m"
        StreamingChat.FetchOutcome.networkError).errorReported = true ∧
    (SimpleChat.sendMessage [] "hi" "http://s" "m"
        (SimpleChat.FetchOutcome.response true "\x7b\x7d")).messages
      = [] ++ [⟨Role.user, jsTrim "hi"⟩] ∧
    (SimpleChat.sendMessage [] "hi" "http://s" "m"
        (SimpleChat.FetchOutcome.response true "\x7b\x7d")).errorReported = true :=
  c8_theorem [] "hi" "http://s" "m" (by decide) (by decide)
    StreamingChat.FetchOutcome.networkError rfl
    (SimpleChat.FetchOutcome.response true "\x7b\x7d") rfl

theorem SimpleChat.loadServerConfig_serverUrl (url modelName : Option String) :
    (SimpleChat.loadServerConfig url modelName).serverUrl
      = (if truthyOptStr url then url.getD "" else "") := by
  unfold SimpleChat.loadServerConfig
  by_cases hcond : (truthyOptStr url = false ∨ truthyOptStr modelName = false)
  · rw [if_pos hcond]
  · rw [if_neg hcond]

theorem SimpleChat.loadServerConfig_selectedModel (url modelName : Option String) :
    (SimpleChat.loadServerConfig url modelName).selectedModel
      = (if truthyOptStr modelName then modelName.getD "" else "") := by
  unfold SimpleChat.loadServerConfig
  by_cases hcond : (truthyOptStr url = false ∨ truthyOptStr modelName = false)
  · rw [if_pos hcond]
  · rw [if_neg hcond]

/-- C9, confirmed.  When either stored setting is falsy, the streaming
screen's initialization routes to the settings screen and does nothing
else - no state adopted, no error, no tags fetch, no preference write -
and the simpler screen routes as well; in both screens the send
precondition then rejects every input, so the engine never becomes ready. -/
theorem c9_theorem (url modelName : Option String)
    (h : truthyOptStr url = false ∨ truthyOptStr modelName = false)
    (pageIsHttps : Bool) (tags : StreamingChat.TagsOutcome) :
    StreamingChat.loadServerConfig url modelName pageIsHttps tags
      = ⟨some "/settings", "", "", [], none, none, []⟩ ∧
    (SimpleChat.loadServerConfig url modelName).route = some "/settings" ∧
    (∀ input : String,
      StreamingChat.sendMessageProceeds input
        (StreamingChat.loadServerConfig url modelName pageIsHttps tags).serverUrl
        (StreamingChat.loadServerConfig url modelName pageIsHttps tags).selectedModel
        = false) ∧
    (∀ input : String,
      SimpleChat.sendMessageProceeds input
        (SimpleChat.loadServerConfig url modelName).serverUrl
        (SimpleChat.loadServerConfig url modelName).selectedModel = false) := by
  have hcfg : StreamingChat.loadServerConfig url modelName pageIsHttps tags
      = ⟨some "/settings", "", "", [], none, none, []⟩ := by
    unfold StreamingChat.loadServerConfig
    rw [if_pos h]
  refine ⟨hcfg, ?_, ?_, ?_⟩
  · unfold SimpleChat.loadServerConfig
    rw [if_pos h]
  · intro input
    rw [hcfg]
    unfold StreamingChat.sendMessageProceeds
    simp
  · intro input
    rcases h with hc | hc
    · have hsu : (SimpleChat.loadServerConfig url modelName).serverUrl = "" := by
        rw [SimpleChat.loadServerConfig_serverUrl, hc]
        simp
      rw [hsu]
      unfold SimpleChat.sendMessageProceeds
      simp
    · have hsm : (SimpleChat.loadServerConfig url modelName).selectedModel = "" := by
        rw [SimpleChat.loadServerConfig_selectedModel, hc]
        simp
      rw [hsm]
      unfold SimpleChat.sendMessageProceeds
      simp

/-- C9, witness with only the server URL configured. -/
theorem c9_witness :
    StreamingChat.loadServerConfig (some "http://srv") none false
        StreamingChat.TagsOutcome.failure
      = ⟨some "/settings", "", "", [], none, none, []⟩ ∧
    (SimpleChat.loadServerConfig (some "http://srv") none).route = some "/settings" ∧
    (∀ input : String,
      StreamingChat.sendMessageProceeds input
        (StreamingChat.loadServerConfig (some "http://srv") none false
          StreamingChat.TagsOutcome.failure).serverUrl
        (StreamingChat.loadServerConfig (some "http://srv") none false
          StreamingChat.TagsOutcome.failure).selectedModel = false) ∧
    (∀ input : String,
      SimpleChat.sendMessageProceeds input
        (SimpleChat.loadServerConfig (some "http://srv") none).serverUrl
        (SimpleChat.loadServerConfig (some "http://srv") none).selectedModel = false) :=
  c9_theorem (some "http://srv") none (Or.inr rfl) false StreamingChat.TagsOutcome.failure

theorem StreamingChat.loadServerConfig_present (url modelName : Option String)
    (hneg : ¬ (truthyOptStr url = false ∨ truthyOptStr modelName = false))
    (pageIsHttps : Bool) (tags : StreamingChat.TagsOutcome) :
    ∃ sel err lm,
      StreamingChat.loadServerConfig url modelName pageIsHttps tags
        = ⟨none,
            (if pageIsHttps = true then jsReplaceFirst (url.getD "") "http:" "https:"
              else url.getD ""),
            sel, lm, err,
            some (if pageIsHttps = true then jsReplaceFirst (url.getD "") "http:" "https:"
              else url.getD ""), []⟩ := by
  unfold StreamingChat.loadServerConfig
  rw [if_neg hneg]
  cases tags with
  | failure =>
    exact ⟨"", some "Could not retrieve model list from server.", [], rfl⟩
  | noModelsField =>
    exact ⟨"", some "Could not retrieve model list from server.", [], rfl⟩
  | success ms =>
    by_cases hlen : ms.length > 0
    · refine ⟨modelName.getD "", none, ms, ?_⟩
      show (if ms.length > 0 then
          (⟨none,
            (if pageIsHttps = true then jsReplaceFirst (url.getD "") "http:" "https:"
              else url.getD ""),
            modelName.getD "", ms, none,
            some (if pageIsHttps = true then jsReplaceFirst (url.getD "") "http:" "https:"
              else url.getD ""), []⟩ : StreamingChat.ChatInitState)
        else
          ⟨none,
            (if pageIsHttps = true then jsReplaceFirst (url.getD "") "http:" "https:"
              else url.getD ""),
            "", ms, some "Could not retrieve model list from server.",
            some (if pageIsHttps = true then jsReplaceFirst (url.getD "") "http:" "https:"
              else url.getD ""), []⟩) = _
      rw [if_pos hlen]
    · refine ⟨"", some "Could not retrieve model list from server.", ms, ?_⟩
      show (if ms.length > 0 then
          (⟨none,
            (if pageIsHttps = true then jsReplaceFirst (url.getD "") "http:" "https:"
              else url.getD ""),
            modelName.getD "", ms, none,
            some (if pageIsHttps = true then jsReplaceFirst (url.getD "") "http:" "https:"
              else url.getD ""), []⟩ : StreamingChat.ChatInitState)
        else
          ⟨none,
            (if pageIsHttps = true then jsReplaceFirst (url.getD "") "http:" "https:"
              else url.getD ""),
            "", ms, some "Could not retrieve model list from server.",
            some (if pageIsHttps = true then jsReplaceFirst (url.getD "") "http:" "https:"
              else url.getD ""), []⟩) = _
      rw [if_neg hlen]

/-- C10, confirmed.  When both settings are present: if the page is served
over https, the URL actually used as the screen's server URL and as the
target of the tags fetch is the stored URL with its first occurrence of
`http:` replaced by `https:` (so a URL with no such occurrence, e.g. an
https URL, is used unchanged); if the page is not served over https the
stored URL is used verbatim; and initialization issues no preference
write, so the persisted value is untouched in either case. -/
theorem c10_theorem (url modelName : Option String) (hu : truthyOptStr url = true)
    (hm : truthyOptStr modelName = true) (tags : StreamingChat.TagsOutcome) :
    ((StreamingChat.loadServerConfig url modelName true tags).serverUrl
        = jsReplaceFirst (url.getD "") "http:" "https:" ∧
      (StreamingChat.loadServerConfig url modelName true tags).fetchedFrom
        = some (jsReplaceFirst (url.getD "") "http:" "https:") ∧
      (StreamingChat.loadServerConfig url modelName true tags).prefsWrites = []) ∧
    ((StreamingChat.loadServerConfig url modelName false tags).serverUrl = url.getD "" ∧
      (StreamingChat.loadServerConfig url modelName false tags).fetchedFrom
        = some (url.getD "") ∧
      (StreamingChat.loadServerConfig url modelName false tags).prefsWrites = []) ∧
    (hasOccur ("http:".data) ((url.getD "").data) = false →
      (StreamingChat.loadServerConfig url modelName true tags).serverUrl = url.getD "") := by
  have hneg : ¬ (truthyOptStr url = false ∨ truthyOptStr modelName = false) := by
    intro hc
    rcases hc with hc | hc
    · rw [hu] at hc
      exact Bool.noConfusion hc
    · rw [hm] at hc
      exact Bool.noConfusion hc
  obtain ⟨sel1, err1, lm1, hcfg1⟩ :=
    StreamingChat.loadServerConfig_present url modelName hneg true tags
  obtain ⟨sel2, err2, lm2, hcfg2⟩ :=
    StreamingChat.loadServerConfig_present url modelName hneg false tags
  rw [hcfg1, hcfg2]
  refine ⟨⟨rfl, rfl, rfl⟩, ⟨rfl, rfl, rfl⟩, ?_⟩
  intro hno
  show (if true = true then jsReplaceFirst (url.getD "") "http:" "https:" else url.getD "")
      = url.getD ""
  rw [if_pos rfl]
  exact jsReplaceFirst_no_occur (url.getD "") "http:" "https:" (by decide) hno

/-- C10, witness: an http URL is rewritten when the page is https and the
tags fetch targets the rewritten URL; an https URL has no occurrence of
`http:` and is used unchanged; no preference write happens. -/
theorem c10_witness :
    ((StreamingChat.loadServerConfig (some "http://srv") (some "llama") true
          StreamingChat.TagsOutcome.failure).serverUrl
        = jsReplaceFirst ((some "http://srv").getD "") "http:" "https:" ∧
      (StreamingChat.loadServerConfig (some "http://srv") (some "llama") true
          StreamingChat.TagsOutcome.failure).fetchedFrom
        = some (jsReplaceFirst ((some "http://srv").getD "") "http:" "https:") ∧
      (StreamingChat.loadServerConfig (some "http://srv") (some "llama") true
          StreamingChat.TagsOutcome.failure).prefsWrites = []) ∧
    ((StreamingChat.loadServerConfig (some "http://srv") (some "llama") false
          StreamingChat.TagsOutcome.failure).serverUrl = (some "http://srv").getD "" ∧
      (StreamingChat.loadServerConfig (some "http://srv") (some "llama") false
          StreamingChat.TagsOutcome.failure).fetchedFrom
        = some ((some "http://srv").getD "") ∧
      (StreamingChat.loadServerConfig (some "http://srv") (some "llama") false
          StreamingChat.TagsOutcome.failure).prefsWrites = []) ∧
    (hasOccur ("http:".data) (((some "http://srv" : Option String)).getD "").data = false →
      (StreamingChat.loadServerConfig (some "http://srv") (some "llama") true
          StreamingChat.TagsOutcome.failure).serverUrl = (some "http://srv").getD "") :=
  c10_theorem (some "http://srv") (some "llama") (by decide) (by decide)
    StreamingChat.TagsOutcome.failure
